import Mathlib

/-!
Shallow embedding of `src/main.py`, a FastAPI message-storage service.

The persisted document is a JSON list of message records; the service
exposes create, list-all, list-unread, mark-read and cleanup endpoints,
all guarded by an `X-API-Key` header check, plus an unauthenticated
OpenAPI-schema endpoint and an unauthenticated privacy-policy page.

Machine-level details modelled explicitly:
* pydantic parsing of the request/persisted record into the `Message`
  model, with field defaults (`id` from a fresh uuid, `read = False`,
  `timestamp = None`) and the `validate_message_length` validator;
* FastAPI surfaces a pydantic request-body validation error as an
  HTTP 422 response (RequestValidationError), not as a handler-raised
  HTTPException;
* a missing `X-API-Key` header is rejected by `APIKeyHeader` with 403,
  a wrong key by `verify_api_key` with 403.

Nondeterministic inputs of the real system (uuid4, the server clock)
are passed in as explicit parameters.
-/

/-- Modelled from the spec: the configuration constant `MAX_MESSAGE_LENGTH`
is read from the environment in lines missing from `src/main.py`; the spec
and the privacy page embedded in the source both fix it at 500. -/
def MAX_MESSAGE_LENGTH : Nat := 500

/-- The pydantic `Message` model after validation: the in-memory message.
`timestamp : str = None` makes the field an implicitly optional string. -/
structure Message where
  id : String
  sender : String
  message : String
  read : Bool
  timestamp : Option String
deriving Repr, DecidableEq

/-- A raw JSON message record, as found in a request body or in the
persisted document. `none` in `id`, `read`, `timestamp` means the field
is absent and the pydantic default applies (`id`: fresh uuid,
`read`: `False`, `timestamp`: `None`). -/
structure MsgRecord where
  id : Option String
  sender : String
  message : String
  read : Option Bool
  timestamp : Option String
deriving Repr, DecidableEq

/-- An `HTTPException`-style error response: status code plus detail. -/
structure HErr where
  status : Nat
  detail : String
deriving Repr, DecidableEq

/-- pydantic validation of a raw record into a `Message` (`Message(**msg)`):
the `validate_message_length` validator rejects a body longer than
`MAX_MESSAGE_LENGTH`; otherwise defaults fill the absent fields.
`freshId` is the value `uuid.uuid4()` would produce for the
`default_factory` of `id`. -/
def parseMessage (freshId : String) (r : MsgRecord) : Except String Message :=
  if r.message.length > MAX_MESSAGE_LENGTH then
    .error ("Message must be " ++ toString MAX_MESSAGE_LENGTH ++ " characters or less")
  else
    .ok { id := r.id.getD freshId
          sender := r.sender
          message := r.message
          read := r.read.getD false
          timestamp := r.timestamp }

/-- Parses the records of a persisted document in order, propagating the
first validation error (`[Message(**msg) for msg in messages]`).
`gen k` is the uuid the `default_factory` draws for the `k`-th record. -/
def parseAll (gen : Nat → String) (k : Nat) : List MsgRecord → Except String (List Message)
  | [] => .ok []
  | r :: rs =>
    match parseMessage (gen k) r with
    | .error e => .error e
    | .ok m =>
      match parseAll gen (k + 1) rs with
      | .error e => .error e
      | .ok ms => .ok (m :: ms)

/-- `load_messages`: reads the persisted document (`none` models a missing
file, caught as `FileNotFoundError` and turned into `[]`) and parses each
record. -/
def load_messages (gen : Nat → String) (doc : Option (List MsgRecord)) :
    Except String (List Message) :=
  match doc with
  | none => .ok []
  | some recs => parseAll gen 0 recs

/-- `msg.dict()`: the record written back for a message; every field is
present in the output. -/
def msgToRecord (m : Message) : MsgRecord :=
  { id := some m.id
    sender := m.sender
    message := m.message
    read := some m.read
    timestamp := m.timestamp }

/-- `save_messages`: overwrites the persisted document with the full list
of record dicts, in order. -/
def save_messages (ms : List Message) : List MsgRecord :=
  ms.map msgToRecord

/-- The `create_message` handler body (after FastAPI has parsed the request
into `m`): reject at 1000 or more stored messages, otherwise stamp the
server time, append, and return the created record together with the
saved collection. -/
def create_message (now : String) (s : List Message) (m : Message) :
    Except HErr (Message × List Message) :=
  if s.length ≥ 1000 then
    .error ⟨400, "Maximum message limit reached"⟩
  else
    let m' := { m with timestamp := some now }
    .ok (m', s ++ [m'])

/-- The full create endpoint: FastAPI first validates the request body
against the `Message` model (a failure is a 422 RequestValidationError),
then runs the handler. -/
def create_endpoint (freshId now : String) (s : List Message) (req : MsgRecord) :
    Except HErr (Message × List Message) :=
  match parseMessage freshId req with
  | .error e => .error ⟨422, e⟩
  | .ok m => create_message now s m

/-- `get_messages`: returns the loaded collection verbatim. -/
def get_messages (s : List Message) : List Message := s

/-- `get_unread_messages`: the unread subsequence, in stored order. -/
def get_unread_messages (s : List Message) : List Message :=
  s.filter (fun m => !m.read)

/-- The scan inside `mark_as_read`: sets `read = True` on the first entry
whose id matches and stops; `none` when no entry matches. -/
def markFirst (message_id : String) : List Message → Option (List Message)
  | [] => none
  | m :: rest =>
    if m.id = message_id then some ({ m with read := true } :: rest)
    else (markFirst message_id rest).map (m :: ·)

/-- The `mark_as_read` handler: on the first match, save and answer
`{"status": "success"}` (the string component); otherwise 404. -/
def mark_as_read (message_id : String) (s : List Message) :
    Except HErr (String × List Message) :=
  match markFirst message_id s with
  | some s' => .ok ("success", s')
  | none => .error ⟨404, "Message not found"⟩

/-- Python `xs[-n:]` for `n > 0`: the last `min n (length xs)` elements. -/
def pyLastSlice (n : Nat) (xs : List Message) : List Message :=
  xs.drop (xs.length - n)

/-- The `cleanup_messages` handler: keep the last 900 messages
(`messages[-900:]`), save, and report the remaining count. -/
def cleanup_messages (s : List Message) : Nat × List Message :=
  let s' := pyLastSlice 900 s
  (s'.length, s')

/-- `verify_api_key`: exact string comparison against the configured
`API_KEY` (whose environment read is missing from `src/main.py`; it is a
parameter here). -/
def verify_api_key (API_KEY : String) (api_key : String) : Except HErr String :=
  if api_key ≠ API_KEY then .error ⟨403, "Invalid API key"⟩
  else .ok api_key

/-- The full header check: `APIKeyHeader` rejects a missing header with
403 before `verify_api_key` compares a present one. `none` means the
check passes. -/
def authCheck (API_KEY : String) (key : Option String) : Option HErr :=
  match key with
  | none => some ⟨403, "Not authenticated"⟩
  | some k =>
    match verify_api_key API_KEY k with
    | .error e => some e
    | .ok _ => none

/-- The routes of the application, with the data each request carries. -/
inductive Endpoint where
  | create (req : MsgRecord)
  | listAll
  | listUnread
  | markRead (id : String)
  | cleanup
  | schema
  | privacy
deriving Repr, DecidableEq

/-- Which routes declare the `verify_api_key` dependency: all except the
OpenAPI-schema route and the privacy-policy page. -/
def requiresAuth : Endpoint → Bool
  | .schema => false
  | .privacy => false
  | _ => true

/-- One response body, by route. -/
inductive Response where
  | okMessage (m : Message)
  | okList (ms : List Message)
  | okStatus (status : String)
  | okCleanup (status : String) (remaining : Nat)
  | okSchema
  | okPrivacy
  | failed (status : Nat) (detail : String)
deriving Repr, DecidableEq

/-- Runs a route's handler on the loaded collection, returning the
response and the collection as persisted afterwards. -/
def runEndpoint (freshId now : String) (s : List Message) :
    Endpoint → Response × List Message
  | .create req =>
    match create_endpoint freshId now s req with
    | .ok (m, s') => (.okMessage m, s')
    | .error e => (.failed e.status e.detail, s)
  | .listAll => (.okList (get_messages s), s)
  | .listUnread => (.okList (get_unread_messages s), s)
  | .markRead i =>
    match mark_as_read i s with
    | .ok (st, s') => (.okStatus st, s')
    | .error e => (.failed e.status e.detail, s)
  | .cleanup =>
    let r := cleanup_messages s
    (.okCleanup "success" r.1, r.2)
  | .schema => (.okSchema, s)
  | .privacy => (.okPrivacy, s)

/-- One request against the application: the auth dependency runs first
on routes that declare it, then the handler. -/
def dispatch (API_KEY : String) (key : Option String) (freshId now : String)
    (s : List Message) (e : Endpoint) : Response × List Message :=
  if requiresAuth e then
    match authCheck API_KEY key with
    | some err => (.failed err.status err.detail, s)
    | none => runEndpoint freshId now s e
  else
    runEndpoint freshId now s e

/-- The mutating operations, with the nondeterministic inputs (fresh uuid,
server clock) of a create attached to it. -/
inductive Op where
  | create (req : MsgRecord) (freshId now : String)
  | markRead (id : String)
  | cleanup
deriving Repr, DecidableEq

/-- The stored collection after one operation; a rejected operation leaves
it unchanged. -/
def step (s : List Message) : Op → List Message
  | .create req freshId now =>
    match create_endpoint freshId now s req with
    | .ok (_, s') => s'
    | .error _ => s
  | .markRead i => (markFirst i s).getD s
  | .cleanup => (cleanup_messages s).2

/-- The stored collection after a sequence of operations. -/
def run (s : List Message) : List Op → List Message
  | [] => s
  | op :: ops => run (step s op) ops

/-- A create operation that leaves the `id` field to its server-side
default, with a generated uuid not already present in the collection it
runs against. -/
def OpFresh (s : List Message) : Op → Prop
  | .create req freshId _ => req.id = none ∧ freshId ∉ s.map Message.id
  | .markRead _ => True
  | .cleanup => True

instance instDecOpFresh (s : List Message) : (op : Op) → Decidable (OpFresh s op)
  | .create req freshId _ =>
    inferInstanceAs (Decidable (req.id = none ∧ freshId ∉ s.map Message.id))
  | .markRead _ => inferInstanceAs (Decidable True)
  | .cleanup => inferInstanceAs (Decidable True)

/-- Every create in the sequence is `OpFresh` for the collection it
actually runs against. -/
def FreshCreates : List Message → List Op → Prop
  | _, [] => True
  | s, op :: ops => OpFresh s op ∧ FreshCreates (step s op) ops

instance instDecFreshCreates : (s : List Message) → (ops : List Op) →
    Decidable (FreshCreates s ops)
  | _, [] => isTrue trivial
  | s, op :: ops =>
    haveI := instDecFreshCreates (step s op) ops
    inferInstanceAs (Decidable (OpFresh s op ∧ FreshCreates (step s op) ops))

/-! ## Helper lemmas -/

theorem markFirst_decomp (i : String) (s₁ : List Message) (m : Message)
    (s₂ : List Message) (h₁ : ∀ m' ∈ s₁, m'.id ≠ i) (h₂ : m.id = i) :
    markFirst i (s₁ ++ m :: s₂) = some (s₁ ++ { m with read := true } :: s₂) := by
  induction s₁ with
  | nil => simp [markFirst, h₂]
  | cons a s₁ ih =>
    have ha : a.id ≠ i := h₁ a (by simp)
    have ih' := ih (fun m' hm' => h₁ m' (by simp [hm']))
    simp [List.cons_append, markFirst, if_neg ha, List.append_eq, ih']

theorem markFirst_none (i : String) (s : List Message)
    (h : ∀ m ∈ s, m.id ≠ i) : markFirst i s = none := by
  induction s with
  | nil => rfl
  | cons a s ih =>
    have ha : a.id ≠ i := h a (by simp)
    have ih' := ih (fun m hm => h m (by simp [hm]))
    simp [markFirst, if_neg ha, ih']

theorem markFirst_map_id (i : String) (s t : List Message)
    (h : markFirst i s = some t) : t.map Message.id = s.map Message.id := by
  induction s generalizing t with
  | nil => simp [markFirst] at h
  | cons a s ih =>
    by_cases ha : a.id = i
    · simp only [markFirst, if_pos ha] at h
      cases h
      simp
    · simp only [markFirst, if_neg ha] at h
      cases hrec : markFirst i s with
      | none => rw [hrec] at h; simp at h
      | some t' =>
        rw [hrec] at h
        simp at h
        subst h
        simp [ih t' hrec]

theorem markFirst_length (i : String) (s t : List Message)
    (h : markFirst i s = some t) : t.length = s.length := by
  have := markFirst_map_id i s t h
  have h1 : (t.map Message.id).length = (s.map Message.id).length := by rw [this]
  simpa using h1

theorem parse_roundtrip (fid fid' : String) (r : MsgRecord) (m : Message)
    (h : parseMessage fid r = .ok m) :
    parseMessage fid' (msgToRecord m) = .ok m := by
  unfold parseMessage at h ⊢
  by_cases hlen : r.message.length > MAX_MESSAGE_LENGTH
  · simp [hlen] at h
  · simp only [if_neg hlen, Except.ok.injEq] at h
    subst h
    simp [msgToRecord, hlen]

theorem parseAll_roundtrip (gen gen' : Nat → String) (k k' : Nat)
    (recs : List MsgRecord) (ms : List Message)
    (h : parseAll gen k recs = .ok ms) :
    parseAll gen' k' (save_messages ms) = .ok ms := by
  induction recs generalizing k k' ms with
  | nil =>
    simp only [parseAll, Except.ok.injEq] at h
    subst h
    rfl
  | cons r rs ih =>
    simp only [parseAll] at h
    cases hp : parseMessage (gen k) r with
    | error e => rw [hp] at h; simp at h
    | ok m =>
      rw [hp] at h
      cases hrest : parseAll gen (k + 1) rs with
      | error e => rw [hrest] at h; simp at h
      | ok ms' =>
        rw [hrest] at h
        simp only [Except.ok.injEq] at h
        subst h
        have hp' := parse_roundtrip (gen k) (gen' k') r m hp
        have ih' := ih (k + 1) (k' + 1) ms' hrest
        simp only [save_messages, List.map_cons] at ih' ⊢
        simp [parseAll, hp', ih']

theorem parseMessage_id (fid : String) (r : MsgRecord) (m : Message)
    (h : parseMessage fid r = .ok m) : m.id = r.id.getD fid := by
  unfold parseMessage at h
  by_cases hlen : r.message.length > MAX_MESSAGE_LENGTH
  · simp [hlen] at h
  · simp only [if_neg hlen, Except.ok.injEq] at h
    subst h
    rfl

theorem step_markRead_ids (s : List Message) (i : String) :
    (step s (.markRead i)).map Message.id = s.map Message.id := by
  simp only [step]
  cases h : markFirst i s with
  | none => rfl
  | some t => simpa using markFirst_map_id i s t h

theorem step_cleanup_ids (s : List Message) :
    ((step s .cleanup).map Message.id).Sublist (s.map Message.id) := by
  simp only [step, cleanup_messages, pyLastSlice]
  exact (List.drop_sublist _ _).map Message.id

theorem step_create_ids (s : List Message) (req : MsgRecord) (fid now : String) :
    (step s (.create req fid now)).map Message.id = s.map Message.id ∨
    (step s (.create req fid now)).map Message.id
      = s.map Message.id ++ [req.id.getD fid] := by
  simp only [step, create_endpoint]
  cases hp : parseMessage fid req with
  | error e => left; rfl
  | ok m =>
    have hid := parseMessage_id fid req m hp
    simp only [create_message]
    by_cases hc : s.length ≥ 1000
    · left; simp [hc]
    · right; simp [hc, hid]

theorem step_nodup (s : List Message) (op : Op)
    (hs : (s.map Message.id).Nodup) (hf : OpFresh s op) :
    ((step s op).map Message.id).Nodup := by
  cases op with
  | markRead i => rw [step_markRead_ids]; exact hs
  | cleanup => exact hs.sublist (step_cleanup_ids s)
  | create req fid now =>
    rcases hf with ⟨hnone, hfresh⟩
    rcases step_create_ids s req fid now with h | h
    · rw [h]; exact hs
    · rw [h, hnone] at *
      simp only [Option.getD_none] at h ⊢
      rw [List.nodup_append]
      exact ⟨hs, List.nodup_singleton _, by
        intro a ha hb
        simp at hb
        subst hb
        exact hfresh ha⟩

theorem run_nodup (ops : List Op) (s : List Message)
    (hs : (s.map Message.id).Nodup) (hf : FreshCreates s ops) :
    ((run s ops).map Message.id).Nodup := by
  induction ops generalizing s with
  | nil => exact hs
  | cons op ops ih =>
    rcases hf with ⟨hop, hrest⟩
    exact ih (step s op) (step_nodup s op hs hop) hrest

theorem step_length (s : List Message) (op : Op)
    (hs : s.length ≤ 1000) : (step s op).length ≤ 1000 := by
  cases op with
  | markRead i =>
    simp only [step]
    cases h : markFirst i s with
    | none => exact hs
    | some t => simpa [markFirst_length i s t h] using hs
  | cleanup =>
    simp only [step, cleanup_messages, pyLastSlice]
    calc (s.drop (s.length - 900)).length ≤ s.length := by
          simp [List.length_drop]
      _ ≤ 1000 := hs
  | create req fid now =>
    simp only [step, create_endpoint]
    cases hp : parseMessage fid req with
    | error e => exact hs
    | ok m =>
      simp only [create_message]
      by_cases hc : s.length ≥ 1000
      · simp [hc, hs]
      · push_neg at hc
        simp only [if_neg (by omega : ¬ s.length ≥ 1000)]
        simp
        omega

theorem run_length (ops : List Op) (s : List Message)
    (hs : s.length ≤ 1000) : (run s ops).length ≤ 1000 := by
  induction ops generalizing s with
  | nil => exact hs
  | cons op ops ih => exact ih (step s op) (step_length s op hs)

/-- A sample message used in concrete witnesses. -/
def mA : Message :=
  { id := "id-a", sender := "alice", message := "hi", read := false
    timestamp := some "2024-12-08T10:00:00" }

/-- A second sample message used in concrete witnesses. -/
def mB : Message :=
  { id := "id-b", sender := "bob", message := "yo", read := false
    timestamp := some "2024-12-08T10:01:00" }

/-! ## Claims -/

/-- C1, counterexample: the create endpoint accepts the full `Message`
model as request body, so a request that supplies `read = true` (body
within the limit, store far below capacity) succeeds and is echoed with
`read = true`, not `read = false` as the claim states for every create
request. -/
theorem c1_counterexample :
    create_endpoint "fresh-1" "2024-12-08T12:00:00" []
        ⟨none, "alice", "hi", some true, none⟩ =
      .ok (⟨"fresh-1", "alice", "hi", true, some "2024-12-08T12:00:00"⟩,
           [⟨"fresh-1", "alice", "hi", true, some "2024-12-08T12:00:00"⟩]) := by
  rfl

/-- C1 (amended): for every create request that leaves `id` and `read`
unsupplied (so the pydantic defaults apply), whose body length is at most
500, where the loaded collection has fewer than 1000 entries, and whose
generated uuid is not already present, the operation succeeds and returns
the created record with the freshly generated id (occurring exactly once
in the saved collection), the caller's sender and body echoed verbatim,
`read = false`, and the server-assigned timestamp; the record is appended
to the end of the stored sequence and persisted. -/
theorem c1_create_defaults (s : List Message) (req : MsgRecord) (fid now : String)
    (hid : req.id = none) (hread : req.read = none)
    (hlen : req.message.length ≤ MAX_MESSAGE_LENGTH)
    (hcap : s.length < 1000)
    (hfresh : fid ∉ s.map Message.id) :
    create_endpoint fid now s req =
      .ok (⟨fid, req.sender, req.message, false, some now⟩,
           s ++ [⟨fid, req.sender, req.message, false, some now⟩]) ∧
    ((s ++ [(⟨fid, req.sender, req.message, false, some now⟩ : Message)]).map
        Message.id).count fid = 1 := by
  constructor
  · simp only [create_endpoint, parseMessage,
      if_neg (by omega : ¬ req.message.length > MAX_MESSAGE_LENGTH), hid, hread,
      Option.getD_none]
    simp [create_message, if_neg (by omega : ¬ s.length ≥ 1000)]
  · have h0 : (s.map Message.id).count fid = 0 := List.count_eq_zero.mpr hfresh
    simp [List.count_append, h0]

/-- C1 witness: a concrete defaults-only create against a one-message
store. -/
theorem c1_create_defaults_witness :
    create_endpoint "fresh-b" "2024-12-08T12:00:00" [mA] ⟨none, "bob", "yo", none, none⟩ =
      .ok (⟨"fresh-b", "bob", "yo", false, some "2024-12-08T12:00:00"⟩,
           [mA, ⟨"fresh-b", "bob", "yo", false, some "2024-12-08T12:00:00"⟩]) :=
  (c1_create_defaults [mA] ⟨none, "bob", "yo", none, none⟩ "fresh-b" "2024-12-08T12:00:00"
    rfl rfl (by decide) (by decide) (by decide)).1

/-- C2, counterexample: the create request body accepts a caller-supplied
id, so two creates from the empty store that both supply `id = "dup"`
leave the stored collection with two entries sharing one id. -/
theorem c2_counterexample :
    (run [] [.create ⟨some "dup", "alice", "hi", none, none⟩ "f1" "t1",
             .create ⟨some "dup", "bob", "yo", none, none⟩ "f2" "t2"]).map Message.id
        = ["dup", "dup"] ∧
    ¬ ((run [] [.create ⟨some "dup", "alice", "hi", none, none⟩ "f1" "t1",
                .create ⟨some "dup", "bob", "yo", none, none⟩ "f2" "t2"]).map
          Message.id).Nodup := by
  exact ⟨rfl, by decide⟩

/-- C2 (amended): starting from an empty store, after any sequence of
create, mark-read and cleanup operations in which every create leaves the
`id` field to its server-side default and every generated uuid is fresh
for the collection it runs against, the ids of the stored entries are
pairwise distinct; moreover no operation rewrites an existing id:
mark-read preserves the id sequence exactly, create either leaves it
unchanged (on rejection) or appends the new id at the end, and cleanup
keeps a subsequence of it. -/
theorem c2_ids_nodup (ops : List Op) (hf : FreshCreates [] ops) :
    ((run [] ops).map Message.id).Nodup ∧
    (∀ s i, (step s (Op.markRead i)).map Message.id = s.map Message.id) ∧
    (∀ s req fid now, (step s (Op.create req fid now)).map Message.id = s.map Message.id ∨
      (step s (Op.create req fid now)).map Message.id
        = s.map Message.id ++ [req.id.getD fid]) ∧
    (∀ s, ((step s Op.cleanup).map Message.id).Sublist (s.map Message.id)) :=
  ⟨run_nodup ops [] (by simp) hf, step_markRead_ids, step_create_ids, step_cleanup_ids⟩

/-- C2 witness: a concrete fresh sequence of one create, one mark-read and
one cleanup. -/
theorem c2_ids_nodup_witness :
    FreshCreates [] [.create ⟨none, "alice", "hi", none, none⟩ "f1" "t1",
                     .markRead "f1", .cleanup] ∧
    ((run [] [.create ⟨none, "alice", "hi", none, none⟩ "f1" "t1",
              .markRead "f1", .cleanup]).map Message.id).Nodup :=
  ⟨by decide,
   (c2_ids_nodup [.create ⟨none, "alice", "hi", none, none⟩ "f1" "t1",
                  .markRead "f1", .cleanup] (by decide)).1⟩

/-- C3, counterexample: the privacy-policy page is a second route without
the `verify_api_key` dependency, so the claim that only the schema
endpoint is served without the credential check fails: a request with no
credential at all is served the privacy page. -/
theorem c3_counterexample :
    dispatch "secret" none "f" "t" [] .privacy = (.okPrivacy, []) ∧
    Endpoint.privacy ≠ Endpoint.schema :=
  ⟨rfl, by decide⟩

/-- C3 (amended): every request to the create, list-all, list-unread,
mark-read or cleanup operation that does not carry the correct configured
credential is rejected with a 403 authorization error and leaves the
stored collection untouched; exactly the schema endpoint and the
privacy-policy endpoint are served without the credential check. -/
theorem c3_auth_guard (API_KEY : String) (key : Option String) (fid now : String)
    (s : List Message) (e : Endpoint) (hk : key ≠ some API_KEY) :
    (requiresAuth e = true →
      ∃ d, dispatch API_KEY key fid now s e = (.failed 403 d, s)) ∧
    (requiresAuth e = false ↔ e = .schema ∨ e = .privacy) := by
  constructor
  · intro hreq
    have hauth : ∃ d, authCheck API_KEY key = some ⟨403, d⟩ := by
      cases key with
      | none => exact ⟨"Not authenticated", rfl⟩
      | some k =>
        have hne : k ≠ API_KEY := fun h => hk (by rw [h])
        exact ⟨"Invalid API key", by simp [authCheck, verify_api_key, hne]⟩
    rcases hauth with ⟨d, hd⟩
    exact ⟨d, by simp [dispatch, hreq, hd]⟩
  · cases e <;> simp [requiresAuth]

/-- C3 witness: a concrete cleanup request with no credential against a
one-message store is rejected with 403 and the store survives. -/
theorem c3_auth_guard_witness :
    ∃ d, dispatch "secret" none "f" "t" [mA] .cleanup = (.failed 403 d, [mA]) :=
  (c3_auth_guard "secret" none "f" "t" [mA] .cleanup (by decide)).1 (by decide)

/-- A 501-character body, one character over the limit. -/
def longBody : String := String.mk (List.replicate 501 'a')

set_option maxRecDepth 10000 in
/-- C4: a create request whose body is 501 characters long is rejected by
the pydantic `validate_message_length` validator before the handler runs,
so the stored collection is untouched; but FastAPI surfaces the failure as
an HTTP 422 RequestValidationError, while both the claim and the OpenAPI
document embedded in the source announce 400 for an over-length body. -/
theorem c4_overlength_rejected :
    dispatch "secret" (some "secret") "f" "t" [mA]
        (.create ⟨none, "alice", longBody, none, none⟩) =
      (.failed 422 ("Message must be " ++ toString MAX_MESSAGE_LENGTH
          ++ " characters or less"), [mA]) ∧
    longBody.length = 501 := by
  exact ⟨rfl, rfl⟩

/-- C5: a create against a collection of exactly 1000 entries is rejected
with the 400 capacity error and the collection survives unchanged
whatever the request was; and the stored collection reachable from the
empty store never exceeds 1000 entries. -/
theorem c5_capacity (s : List Message) (m : Message) (now : String)
    (h : s.length = 1000) :
    create_message now s m = .error ⟨400, "Maximum message limit reached"⟩ ∧
    (∀ req fid now2, step s (Op.create req fid now2) = s) ∧
    (∀ ops : List Op, (run [] ops).length ≤ 1000) := by
  refine ⟨?_, ?_, fun ops => run_length ops [] (by simp)⟩
  · simp [create_message, h]
  · intro req fid now2
    simp only [step, create_endpoint]
    cases hp : parseMessage fid req with
    | error e => rfl
    | ok m2 => simp [create_message, h]

/-- C5 witness: a create against a concrete 1000-entry collection. -/
theorem c5_capacity_witness :
    create_message "2024-12-08T12:00:00" (List.replicate 1000 mA) mB =
      .error ⟨400, "Maximum message limit reached"⟩ :=
  (c5_capacity (List.replicate 1000 mA) mB "2024-12-08T12:00:00"
    (by rw [List.length_replicate])).1

/-- C6: cleanup on a collection of size S leaves it unchanged and reports
remaining = S when S ≤ 900; when S > 900 it reports remaining = 900 and
keeps exactly the last 900 entries in insertion order (the oldest S - 900
are the dropped initial segment); and cleaning the result again is the
identity on it. -/
theorem c6_cleanup (s : List Message) :
    (s.length ≤ 900 → cleanup_messages s = (s.length, s)) ∧
    (900 < s.length →
      (cleanup_messages s).1 = 900 ∧
      (cleanup_messages s).2.length = 900 ∧
      s.take (s.length - 900) ++ (cleanup_messages s).2 = s) ∧
    cleanup_messages (cleanup_messages s).2 =
      ((cleanup_messages s).2.length, (cleanup_messages s).2) := by
  have hdrop : ∀ t : List Message, t.length ≤ 900 → cleanup_messages t = (t.length, t) := by
    intro t ht
    simp [cleanup_messages, pyLastSlice, Nat.sub_eq_zero_of_le ht]
  have hlen2 : (cleanup_messages s).2.length ≤ 900 := by
    simp only [cleanup_messages, pyLastSlice, List.length_drop]
    omega
  refine ⟨hdrop s, ?_, hdrop (cleanup_messages s).2 hlen2⟩
  intro h
  refine ⟨?_, ?_, ?_⟩
  · simp only [cleanup_messages, pyLastSlice, List.length_drop]
    omega
  · simp only [cleanup_messages, pyLastSlice, List.length_drop]
    omega
  · simpa only [cleanup_messages, pyLastSlice] using
      List.take_append_drop (s.length - 900) s

/-- C6 witness: cleanup of a one-message store reports 1 remaining and
keeps the store. -/
theorem c6_cleanup_witness :
    cleanup_messages [mA] = (1, [mA]) :=
  (c6_cleanup [mA]).1 (by decide)

/-- C7: when the stored collection contains an entry with the given id
(split as the entries before the first match, the first match `m`, and
the rest), mark-read succeeds with the `success` acknowledgment, flips
exactly that entry's `read` flag and leaves every other entry and the
order unchanged; running it again returns the same success response and
the same collection. -/
theorem c7_mark_read (i : String) (s₁ : List Message) (m : Message)
    (s₂ : List Message) (h₁ : ∀ m' ∈ s₁, m'.id ≠ i) (h₂ : m.id = i) :
    mark_as_read i (s₁ ++ m :: s₂) =
      .ok ("success", s₁ ++ { m with read := true } :: s₂) ∧
    mark_as_read i (s₁ ++ { m with read := true } :: s₂) =
      .ok ("success", s₁ ++ { m with read := true } :: s₂) := by
  have hm := markFirst_decomp i s₁ m s₂ h₁ h₂
  have hm2 := markFirst_decomp i s₁ { m with read := true } s₂ h₁ (by simpa using h₂)
  exact ⟨by simp [mark_as_read, hm], by simp [mark_as_read, hm2]⟩

/-- C7 witness: marking the first message of a concrete two-message store. -/
theorem c7_mark_read_witness :
    mark_as_read "id-a" [mA, mB] =
      .ok ("success", [{ mA with read := true }, mB]) :=
  (c7_mark_read "id-a" [] mA [mB] (by simp) rfl).1

/-- C8: when no stored entry carries the given id, mark-read rejects with
the 404 not-found error and the stored collection is unchanged. -/
theorem c8_mark_read_missing (i : String) (s : List Message)
    (h : ∀ m ∈ s, m.id ≠ i) :
    mark_as_read i s = .error ⟨404, "Message not found"⟩ ∧
    step s (Op.markRead i) = s := by
  have hm := markFirst_none i s h
  exact ⟨by simp [mark_as_read, hm], by simp [step, hm]⟩

/-- C8 witness: marking an unknown id against a concrete store. -/
theorem c8_mark_read_missing_witness :
    mark_as_read "zzz" [mA] = .error ⟨404, "Message not found"⟩ :=
  (c8_mark_read_missing "zzz" [mA] (by decide)).1

/-- C9: loading a persisted document and saving the result back preserves
the document's semantic content: reloading the saved document (under any
uuid supply) yields exactly the same message sequence; and loading when no
persisted document exists yields the empty sequence rather than an
error. -/
theorem c9_roundtrip (gen gen' : Nat → String) (d : Option (List MsgRecord))
    (ms : List Message) (h : load_messages gen d = .ok ms) :
    load_messages gen' (some (save_messages ms)) = .ok ms ∧
    load_messages gen none = .ok [] := by
  refine ⟨?_, rfl⟩
  cases d with
  | none =>
    simp only [load_messages, Except.ok.injEq] at h
    subst h
    rfl
  | some recs =>
    simp only [load_messages] at h ⊢
    exact parseAll_roundtrip gen gen' 0 0 recs ms h

/-- C9 witness: a concrete one-record document round-trips. -/
theorem c9_roundtrip_witness :
    load_messages (fun _ => "g2") (some (save_messages [mA])) = .ok [mA] :=
  (c9_roundtrip (fun _ => "g1") (fun _ => "g2") (some [msgToRecord mA]) [mA] rfl).1

/-- C10: when the stored collection holds two or more entries with the
same id (the first match `m`, with a later duplicate somewhere in the
tail `s₂`), mark-read flips `read` only on the first match: the tail,
duplicates included, reappears verbatim after it, each keeping its
previous `read` value. -/
theorem c10_duplicate_first_only (i : String) (s₁ : List Message) (m : Message)
    (s₂ : List Message) (h₁ : ∀ m' ∈ s₁, m'.id ≠ i) (h₂ : m.id = i)
    (hdup : ∃ m' ∈ s₂, m'.id = i) :
    mark_as_read i (s₁ ++ m :: s₂) =
      .ok ("success", s₁ ++ { m with read := true } :: s₂) ∧
    (s₁ ++ { m with read := true } :: s₂).drop (s₁.length + 1) = s₂ := by
  refine ⟨by simp [mark_as_read, markFirst_decomp i s₁ m s₂ h₁ h₂], ?_⟩
  rw [show s₁ ++ { m with read := true } :: s₂
        = (s₁ ++ [{ m with read := true }]) ++ s₂ by simp]
  rw [show s₁.length + 1 = (s₁ ++ [{ m with read := true }]).length by simp]
  exact List.drop_left _ _

/-- C10 witness: a duplicate id in a concrete store keeps its `read = true`
value while the first match is flipped. -/
theorem c10_duplicate_first_only_witness :
    mark_as_read "id-a" [mA, ⟨"id-a", "bob", "yo", true, none⟩] =
      .ok ("success", [{ mA with read := true }, ⟨"id-a", "bob", "yo", true, none⟩]) :=
  (c10_duplicate_first_only "id-a" [] mA [⟨"id-a", "bob", "yo", true, none⟩]
    (by simp) rfl ⟨⟨"id-a", "bob", "yo", true, none⟩, by simp, rfl⟩).1
